import Mathlib

/-!
Shallow embedding of `nerdbank-qrcodes/src/lib.rs`, the decode boundary
adapter of Nerdbank.QRCodes.

The Rust source exposes two `extern "C"` entry points,
`decode_qr_code_from_file` and `decode_qr_code_from_image`, both of which
funnel an external decode result through `process_result`, which copies the
decoded text (re-encoded as UTF-16 code units) into a caller-supplied buffer
of declared capacity `decoded_length`.

Modelling decisions:
* The caller's output memory is a function `Nat → Nat` (each cell one u16
  code unit); the declared capacity `cap` mirrors `decoded_length`.  This
  lets us state that the adapter never touches cells at index ≥ `cap`.
* The external image/barcode libraries (`image::load_from_memory`,
  `rxing::helpers::detect_in_file`, `MultiFormatReader::decode_with_hints`)
  are oracles passed as function parameters: the adapter's own code is what
  we embed; the libraries are black boxes per the source's structure.
* Rust `String` values carry the invariant that every char is a Unicode
  scalar value; `RXingResult.text` carries the same invariant as a field.
* UTF-16 encoding/decoding mirrors Rust's `str::encode_utf16` and the
  `encoding` crate's `UTF_16LE.decode` with `DecoderTrap::Strict` (which
  fails on any unpaired surrogate or trailing odd byte).
-/

/-- Status constant `QR_DECODE_NO_QR_CODE: i32 = 0` from lib.rs. -/
def QR_DECODE_NO_QR_CODE : Int := 0

/-- Status constant `INVALID_UTF16_STRING: i32 = -1` from lib.rs. -/
def INVALID_UTF16_STRING : Int := -1

/-- Status constant `IMAGE_ERROR: i32 = -2` from lib.rs. -/
def IMAGE_ERROR : Int := -2

/-- Status constant `QR_DECODE_ERROR: i32 = -3` from lib.rs. -/
def QR_DECODE_ERROR : Int := -3

/-- The `rxing::Exceptions` error enum (the variants the adapter can
observe from the detection library; `lib.rs` matches only on
`NotFoundException` and treats every other variant uniformly). -/
inductive Exceptions where
  | NotFoundException : Option String → Exceptions
  | IllegalArgumentException : Option String → Exceptions
  | FormatException : Option String → Exceptions
  | ChecksumException : Option String → Exceptions
  | ReaderDecodeException : Option String → Exceptions
deriving DecidableEq

/-- A character (Rust `char` / Unicode scalar value): a code point below
0x110000 that is not a surrogate. -/
def IsScalar (c : Nat) : Prop := c < 0x110000 ∧ (c < 0xD800 ∨ 0xDFFF < c)

instance (c : Nat) : Decidable (IsScalar c) := by unfold IsScalar; infer_instance

/-- The `rxing::RXingResult` as the adapter uses it: `getText()` returns a
Rust `String`, modelled as its list of Unicode scalar values together with
the `String` type's validity invariant. -/
structure RXingResult where
  text : List Nat
  text_scalar : ∀ c ∈ text, IsScalar c

/-- The `image::DynamicImage` produced by `image::load_from_memory`,
opaque to the adapter. -/
structure DynamicImage where
  data : List Nat

/-- Rust `char::encode_utf16` for a single scalar value: one code unit
below 0x10000, otherwise a surrogate pair. -/
def encodeUtf16Char (c : Nat) : List Nat :=
  if c < 0x10000 then [c]
  else [0xD800 + (c - 0x10000) / 0x400, 0xDC00 + (c - 0x10000) % 0x400]

/-- Rust `str::encode_utf16`: concatenation of the per-char encodings.
This is the `r.getText().encode_utf16()` iterator in `process_result`. -/
def encodeUtf16 (cs : List Nat) : List Nat := (cs.map encodeUtf16Char).flatten

/-- Strict UTF-16 decoding of a sequence of 16-bit code units into scalar
values: fails (`none`) on any unpaired surrogate.  This is the code-unit
level of the `encoding` crate's UTF-16 decoder with `DecoderTrap::Strict`. -/
def decodeUtf16 : List Nat → Option (List Nat)
  | [] => some []
  | u :: rest =>
    if u < 0xD800 ∨ 0xDFFF < u then
      (decodeUtf16 rest).map (fun t => u :: t)
    else if 0xDC00 ≤ u then none
    else
      match rest with
      | [] => none
      | l :: rest2 =>
        if 0xDC00 ≤ l ∧ l ≤ 0xDFFF then
          (decodeUtf16 rest2).map
            (fun t => (0x10000 + (u - 0xD800) * 0x400 + (l - 0xDC00)) :: t)
        else none

/-- The byte reinterpretation in `decode_qr_code_from_file`:
`from_raw_parts(file_path as *const u8, file_path_len * 2)` views the u16
buffer as little-endian bytes. -/
def unitsToBytesLE (units : List Nat) : List Nat :=
  (units.map (fun u => [u % 256, u / 256])).flatten

/-- The `encoding` crate's byte-pairing step for UTF_16LE: group bytes into
little-endian 16-bit units; a trailing odd byte is an error under
`DecoderTrap::Strict`. -/
def bytesToUnits : List Nat → Option (List Nat)
  | [] => some []
  | [_] => none
  | lo :: hi :: rest => (bytesToUnits rest).map (fun us => (lo + 256 * hi) :: us)

/-- `UTF_16LE.decode(bytes, DecoderTrap::Strict)`: pair the bytes, then
strictly decode the code units. -/
def utf16leDecodeBytes (bs : List Nat) : Option (List Nat) :=
  match bytesToUnits bs with
  | none => none
  | some us => decodeUtf16 us

/-- The copy loop of `process_result`:
`for (i, c) in content.enumerate() { if i < decoded_length { decoded_slice[i] = c; } content_len += 1; }`.
Returns the final memory and the final `content_len` counter. -/
def copy_loop : List Nat → Nat → Nat → (Nat → Nat) → Nat → (Nat → Nat) × Nat
  | [], _, _, mem, n => (mem, n)
  | c :: rest, i, cap, mem, n =>
    copy_loop rest (i + 1) cap
      (if i < cap then (fun j => if j = i then c else mem j) else mem) (n + 1)

/-- `process_result` from lib.rs: on `Ok`, re-encode the text to UTF-16 and
copy it into the output buffer (truncating at `decoded_length`), returning
the full code-unit count; on `Err`, map `NotFoundException` to
`QR_DECODE_NO_QR_CODE` and everything else to `QR_DECODE_ERROR`, leaving
the buffer untouched. -/
def process_result (r : Except Exceptions RXingResult) (cap : Nat)
    (mem : Nat → Nat) : Int × (Nat → Nat) :=
  match r with
  | .ok r =>
    let res := copy_loop (encodeUtf16 r.text) 0 cap mem 0
    (Int.ofNat res.2, res.1)
  | .error (.NotFoundException _) => (QR_DECODE_NO_QR_CODE, mem)
  | .error _ => (QR_DECODE_ERROR, mem)

/-- `decode_qr_code_from_file` from lib.rs: reinterpret the u16 path buffer
as bytes, decode it strictly as UTF-16LE (returning `INVALID_UTF16_STRING`
on failure, before any library call), then hand the path to the external
detection helper `rxing::helpers::detect_in_file` (the `detect` oracle) and
process its result. -/
def decode_qr_code_from_file (file_path : List Nat)
    (detect : List Nat → Except Exceptions RXingResult)
    (cap : Nat) (mem : Nat → Nat) : Int × (Nat → Nat) :=
  match utf16leDecodeBytes (unitsToBytesLE file_path) with
  | none => (INVALID_UTF16_STRING, mem)
  | some p => process_result (detect p) cap mem

/-- `decode_qr_code_from_image` from lib.rs: load the image from the byte
buffer via `image::load_from_memory` (the `loadImage` oracle); on failure
return `IMAGE_ERROR`, otherwise run the detection (the `detect` oracle,
standing for `detect_in_file_with_hints`) and process the result. -/
def decode_qr_code_from_image (image_buffer : List Nat)
    (loadImage : List Nat → Option DynamicImage)
    (detect : DynamicImage → Except Exceptions RXingResult)
    (cap : Nat) (mem : Nat → Nat) : Int × (Nat → Nat) :=
  match loadImage image_buffer with
  | some img => process_result (detect img) cap mem
  | none => (IMAGE_ERROR, mem)

/-- Read `n` code units out of the output memory, as the caller would. -/
def readBuf (mem : Nat → Nat) (n : Nat) : List Nat :=
  (List.range n).map mem

/-! ### Helper lemmas about the copy loop -/

theorem copy_loop_snd (content : List Nat) :
    ∀ (i cap : Nat) (mem : Nat → Nat) (n : Nat),
      (copy_loop content i cap mem n).2 = n + content.length := by
  induction content with
  | nil => intro i cap mem n; simp [copy_loop]
  | cons c rest ih =>
    intro i cap mem n
    simp only [copy_loop, ih, List.length_cons]
    omega

theorem copy_loop_fst_lt (content : List Nat) :
    ∀ (i cap : Nat) (mem : Nat → Nat) (n j : Nat), j < i →
      (copy_loop content i cap mem n).1 j = mem j := by
  induction content with
  | nil => intro i cap mem n j _; rfl
  | cons c rest ih =>
    intro i cap mem n j hj
    simp only [copy_loop]
    rw [ih (i + 1) cap _ (n + 1) j (by omega)]
    split
    · exact if_neg (Nat.ne_of_lt hj)
    · rfl

theorem copy_loop_fst_ge (content : List Nat) :
    ∀ (i cap : Nat) (mem : Nat → Nat) (n j : Nat), i ≤ j →
      (copy_loop content i cap mem n).1 j =
        if j - i < content.length ∧ j < cap then content.getD (j - i) 0
        else mem j := by
  induction content with
  | nil =>
    intro i cap mem n j _
    simp [copy_loop]
  | cons c rest ih =>
    intro i cap mem n j hij
    rcases Nat.eq_or_lt_of_le hij with heq | hlt
    · subst heq
      simp only [copy_loop]
      rw [copy_loop_fst_lt rest (i + 1) cap _ (n + 1) i (by omega)]
      simp only [Nat.sub_self, List.length_cons, List.getD]
      by_cases hcap : i < cap
      · simp [hcap]
      · simp [hcap]
    · simp only [copy_loop]
      rw [ih (i + 1) cap _ (n + 1) j (by omega)]
      have hmemj : (if i < cap then (fun j2 => if j2 = i then c else mem j2)
          else mem) j = mem j := by
        split
        · exact if_neg (by omega)
        · rfl
      rw [hmemj]
      have h2 : j - i = (j - (i + 1)) + 1 := by omega
      rw [h2, List.getD_cons_succ]
      have hiff : (j - (i + 1) + 1 < (c :: rest).length ∧ j < cap) ↔
          (j - (i + 1) < rest.length ∧ j < cap) := by
        simp only [List.length_cons]
        omega
      simp only [hiff]

/-! ### Helper lemmas about the boundary text encoding -/

theorem bytesToUnits_unitsToBytesLE (units : List Nat)
    (h : ∀ u ∈ units, u < 65536) :
    bytesToUnits (unitsToBytesLE units) = some units := by
  induction units with
  | nil => rfl
  | cons u rest ih =>
    have hrest : ∀ v ∈ rest, v < 65536 := fun v hv =>
      h v (List.mem_cons_of_mem u hv)
    have step : unitsToBytesLE (u :: rest) =
        u % 256 :: u / 256 :: unitsToBytesLE rest := by
      simp [unitsToBytesLE]
    rw [step]
    simp only [bytesToUnits]
    rw [ih hrest]
    have hu : u % 256 + 256 * (u / 256) = u := by omega
    simp [hu]

theorem decodeUtf16_cons_unit (u : Nat) (tail : List Nat)
    (h : u < 0xD800 ∨ 0xDFFF < u) :
    decodeUtf16 (u :: tail) = (decodeUtf16 tail).map (fun t => u :: t) := by
  rw [decodeUtf16.eq_def]
  simp [h]

theorem decodeUtf16_cons_pair (hi lo : Nat) (tail : List Nat)
    (h1 : 0xD800 ≤ hi) (h2 : hi < 0xDC00) (h3 : 0xDC00 ≤ lo) (h4 : lo ≤ 0xDFFF) :
    decodeUtf16 (hi :: lo :: tail) =
      (decodeUtf16 tail).map
        (fun t => (0x10000 + (hi - 0xD800) * 0x400 + (lo - 0xDC00)) :: t) := by
  rw [decodeUtf16.eq_def]
  have hn1 : ¬(hi < 0xD800 ∨ 0xDFFF < hi) := by omega
  have hn2 : ¬(0xDC00 ≤ hi) := by omega
  simp [hn1, hn2, h3, h4]

theorem decodeUtf16_encodeUtf16 (cs : List Nat) (h : ∀ c ∈ cs, IsScalar c) :
    decodeUtf16 (encodeUtf16 cs) = some cs := by
  induction cs with
  | nil => rfl
  | cons c rest ih =>
    have hc : IsScalar c := h c (List.mem_cons_self c rest)
    have hrest : ∀ x ∈ rest, IsScalar x := fun x hx =>
      h x (List.mem_cons_of_mem c hx)
    have step : encodeUtf16 (c :: rest) = encodeUtf16Char c ++ encodeUtf16 rest := by
      simp [encodeUtf16]
    rw [step]
    by_cases hbmp : c < 0x10000
    · have hch : encodeUtf16Char c = [c] := by simp [encodeUtf16Char, hbmp]
      rw [hch, List.cons_append, List.nil_append,
        decodeUtf16_cons_unit c _ hc.2, ih hrest]
      rfl
    · have hlt : c < 0x110000 := hc.1
      have hvdiv : (c - 0x10000) / 0x400 < 0x400 := by omega
      have hvmod : (c - 0x10000) % 0x400 < 0x400 := by omega
      have hch : encodeUtf16Char c =
          [0xD800 + (c - 0x10000) / 0x400, 0xDC00 + (c - 0x10000) % 0x400] := by
        simp [encodeUtf16Char, hbmp]
      rw [hch, List.cons_append, List.cons_append, List.nil_append,
        decodeUtf16_cons_pair _ _ _ (by omega) (by omega) (by omega) (by omega),
        ih hrest]
      have hval : 0x10000 + (c - 0x10000) / 0x400 * 0x400 +
          (c - 0x10000) % 0x400 = c := by omega
      simp [hval]

/-! ### Characterization of `process_result` -/

theorem process_result_ok_fst (r : RXingResult) (cap : Nat) (mem : Nat → Nat) :
    (process_result (.ok r) cap mem).1 = Int.ofNat (encodeUtf16 r.text).length := by
  simp [process_result, copy_loop_snd]

theorem process_result_ok_snd (r : RXingResult) (cap : Nat) (mem : Nat → Nat)
    (j : Nat) :
    (process_result (.ok r) cap mem).2 j =
      if j < (encodeUtf16 r.text).length ∧ j < cap then
        (encodeUtf16 r.text).getD j 0
      else mem j := by
  have h := copy_loop_fst_ge (encodeUtf16 r.text) 0 cap mem 0 j (Nat.zero_le j)
  simpa [process_result] using h

theorem process_result_error_snd (e : Exceptions) (cap : Nat) (mem : Nat → Nat) :
    (process_result (.error e) cap mem).2 = mem := by
  cases e <;> rfl

theorem process_result_error_fst (e : Exceptions) (cap : Nat) (mem : Nat → Nat) :
    (process_result (.error e) cap mem).1 = QR_DECODE_NO_QR_CODE ∨
    (process_result (.error e) cap mem).1 = QR_DECODE_ERROR := by
  cases e
  · exact Or.inl rfl
  all_goals exact Or.inr rfl

theorem process_result_frame (res : Except Exceptions RXingResult) (cap : Nat)
    (mem : Nat → Nat) (j : Nat) (hj : cap ≤ j) :
    (process_result res cap mem).2 j = mem j := by
  cases res with
  | ok r =>
    rw [process_result_ok_snd]
    have hcond : ¬(j < (encodeUtf16 r.text).length ∧ j < cap) := by omega
    simp [hcond]
  | error e => rw [process_result_error_snd]

/-- Reading back the written region: if the first `content.length` cells of
`mem` hold `content`, then `readBuf` recovers `content` itself. -/
theorem readBuf_eq (mem : Nat → Nat) (content : List Nat)
    (h : ∀ j, j < content.length → mem j = content.getD j 0) :
    readBuf mem content.length = content := by
  apply List.ext_getElem
  · simp [readBuf]
  · intro i h1 h2
    simp only [readBuf, List.getElem_map, List.getElem_range]
    rw [h i h2, List.getD_eq_getElem content 0 h2]

/-! ### Sample concrete values used by witnesses and counterexamples -/

/-- A sample decode result with text "HI" (2 code units, both BMP). -/
def sampleResult : RXingResult := ⟨[72, 73], by decide⟩

/-- A sample decode result with empty text. -/
def emptyResult : RXingResult := ⟨[], by decide⟩

/-- A sample image value (the adapter never inspects it). -/
def sampleImage : DynamicImage := ⟨[0]⟩

/-- A sample output memory, all cells zero. -/
def mem0 : Nat → Nat := fun _ => 0

/-! ### Claims -/

/-- C1: For every call to `decode_qr_code_from_file` or
`decode_qr_code_from_image` with output buffer capacity `cap`
(`decoded_length`), the adapter writes at most `cap` code units: every cell
of the caller's memory at index ≥ `cap` is left unchanged, even when the
decoded text is longer than the capacity. -/
theorem C1_no_write_past_capacity (file_path image_buffer : List Nat)
    (detectF : List Nat → Except Exceptions RXingResult)
    (loadImage : List Nat → Option DynamicImage)
    (detectI : DynamicImage → Except Exceptions RXingResult)
    (cap : Nat) (mem : Nat → Nat) (j : Nat) (hj : cap ≤ j) :
    (decode_qr_code_from_file file_path detectF cap mem).2 j = mem j ∧
    (decode_qr_code_from_image image_buffer loadImage detectI cap mem).2 j = mem j := by
  constructor
  · cases hdec : utf16leDecodeBytes (unitsToBytesLE file_path) with
    | none => simp [decode_qr_code_from_file, hdec]
    | some p =>
      simp only [decode_qr_code_from_file, hdec]
      exact process_result_frame _ cap mem j hj
  · cases hload : loadImage image_buffer with
    | none => simp [decode_qr_code_from_image, hload]
    | some img =>
      simp only [decode_qr_code_from_image, hload]
      exact process_result_frame _ cap mem j hj

theorem C1_witness :
    (1 : Nat) ≤ 1 ∧
    ((decode_qr_code_from_file [72] (fun _ => .ok sampleResult) 1 mem0).2 1 = mem0 1 ∧
     (decode_qr_code_from_image [0] (fun _ => some sampleImage)
       (fun _ => .ok sampleResult) 1 mem0).2 1 = mem0 1) :=
  ⟨le_refl 1,
   C1_no_write_past_capacity [72] [0] (fun _ => .ok sampleResult)
     (fun _ => some sampleImage) (fun _ => .ok sampleResult) 1 mem0 1 (le_refl 1)⟩

/-- C2: For every successful decode whose text needs more UTF-16 code units
than the capacity, the adapter writes exactly `cap` code units — the first
`cap` units of the re-encoded text — and returns the full required length,
so the caller can detect truncation by comparing the return to `cap`. -/
theorem C2_best_effort_truncation (r : RXingResult) (cap : Nat) (mem : Nat → Nat)
    (hover : cap < (encodeUtf16 r.text).length) :
    (process_result (.ok r) cap mem).1 = Int.ofNat (encodeUtf16 r.text).length ∧
    (∀ j, j < cap →
      (process_result (.ok r) cap mem).2 j = (encodeUtf16 r.text).getD j 0) ∧
    (∀ j, cap ≤ j → (process_result (.ok r) cap mem).2 j = mem j) := by
  refine ⟨process_result_ok_fst r cap mem, ?_, ?_⟩
  · intro j hj
    rw [process_result_ok_snd]
    have hcond : j < (encodeUtf16 r.text).length ∧ j < cap := ⟨by omega, hj⟩
    simp [hcond]
  · intro j hj
    exact process_result_frame _ cap mem j hj

theorem C2_witness :
    1 < (encodeUtf16 sampleResult.text).length ∧
    (process_result (.ok sampleResult) 1 mem0).1 =
      Int.ofNat (encodeUtf16 sampleResult.text).length ∧
    (process_result (.ok sampleResult) 1 mem0).2 0 =
      (encodeUtf16 sampleResult.text).getD 0 0 ∧
    (process_result (.ok sampleResult) 1 mem0).2 3 = mem0 3 :=
  ⟨by decide,
   (C2_best_effort_truncation sampleResult 1 mem0 (by decide)).1,
   (C2_best_effort_truncation sampleResult 1 mem0 (by decide)).2.1 0 (by decide),
   (C2_best_effort_truncation sampleResult 1 mem0 (by decide)).2.2 3 (by decide)⟩

/-- C3 counterexample: with decoded text "HI" (2 code units) and capacity 1,
both exposed entry points overwrite cell 0 (a partial write happens before
the call returns) and return 2, the full length — a value in the success
range, not a distinct buffer-overflow status.  So no exposed operation or
configuration aborts before writing on overflow: the claimed strict mode
does not exist in the code. -/
theorem C3_counterexample :
    (decode_qr_code_from_file [72] (fun _ => .ok sampleResult) 1 mem0).2 0 = 72 ∧
    (decode_qr_code_from_file [72] (fun _ => .ok sampleResult) 1 mem0).1 = 2 ∧
    (decode_qr_code_from_image [0] (fun _ => some sampleImage)
      (fun _ => .ok sampleResult) 1 mem0).2 0 = 72 ∧
    (decode_qr_code_from_image [0] (fun _ => some sampleImage)
      (fun _ => .ok sampleResult) 1 mem0).1 = 2 ∧
    mem0 0 ≠ 72 := by
  decide

/-- C3 amended: the adapter supports only the best-effort policy.  When the
decoded text exceeds the capacity the return value is still the full
required length (a non-negative value of the success taxonomy), and the
only non-success statuses `process_result` can return are
`QR_DECODE_NO_QR_CODE` and `QR_DECODE_ERROR`: no distinct buffer-overflow
status code exists. -/
theorem C3_amended_best_effort_only (r : RXingResult) (e : Exceptions)
    (cap : Nat) (mem : Nat → Nat) (hover : cap < (encodeUtf16 r.text).length) :
    0 ≤ (process_result (.ok r) cap mem).1 ∧
    (process_result (.ok r) cap mem).1 = Int.ofNat (encodeUtf16 r.text).length ∧
    ((process_result (.error e) cap mem).1 = QR_DECODE_NO_QR_CODE ∨
     (process_result (.error e) cap mem).1 = QR_DECODE_ERROR) := by
  refine ⟨?_, process_result_ok_fst r cap mem, process_result_error_fst e cap mem⟩
  rw [process_result_ok_fst]
  exact Int.ofNat_nonneg _

theorem C3_amended_witness :
    1 < (encodeUtf16 sampleResult.text).length ∧
    (0 ≤ (process_result (.ok sampleResult) 1 mem0).1 ∧
     (process_result (.ok sampleResult) 1 mem0).1 =
       Int.ofNat (encodeUtf16 sampleResult.text).length ∧
     ((process_result (.error (.NotFoundException none)) 1 mem0).1 =
        QR_DECODE_NO_QR_CODE ∨
      (process_result (.error (.NotFoundException none)) 1 mem0).1 =
        QR_DECODE_ERROR)) :=
  ⟨by decide,
   C3_amended_best_effort_only sampleResult (.NotFoundException none) 1 mem0
     (by decide)⟩

/-- C4 counterexample: in `decode_qr_code_from_file` the image loading
happens inside the external detection helper, so an image-load failure
arrives as a non-NotFound exception (e.g. `IllegalArgumentException` for a
file that cannot be opened as an image) and is mapped to the same status
`QR_DECODE_ERROR` as a generic decode failure: the two conditions are not
distinguished by the return value. -/
theorem C4_counterexample :
    (decode_qr_code_from_file [65]
      (fun _ => .error (.IllegalArgumentException none)) 4 mem0).1 =
      QR_DECODE_ERROR ∧
    (decode_qr_code_from_file [65]
      (fun _ => .error (.ReaderDecodeException none)) 4 mem0).1 =
      QR_DECODE_ERROR := by
  decide

/-- C4 amended: `decode_qr_code_from_image` does distinguish the taxonomy
(success count, invalid encoding −1, image-load −2, not-found 0, generic
failure −3, pairwise distinct constants), but `decode_qr_code_from_file`
maps every failure of the detection helper to either `QR_DECODE_NO_QR_CODE`
or `QR_DECODE_ERROR`: its status on an image-load failure is never the
dedicated `IMAGE_ERROR` code, hence not distinct from the not-found or
generic decode-failure statuses. -/
theorem C4_amended_file_statuses (path : List Nat)
    (detect : List Nat → Except Exceptions RXingResult) (cap : Nat)
    (mem : Nat → Nat) (e : Exceptions) (p : List Nat)
    (hdec : utf16leDecodeBytes (unitsToBytesLE path) = some p)
    (herr : detect p = .error e) :
    ((decode_qr_code_from_file path detect cap mem).1 = QR_DECODE_NO_QR_CODE ∨
     (decode_qr_code_from_file path detect cap mem).1 = QR_DECODE_ERROR) ∧
    (decode_qr_code_from_file path detect cap mem).1 ≠ IMAGE_ERROR ∧
    QR_DECODE_NO_QR_CODE ≠ QR_DECODE_ERROR ∧
    IMAGE_ERROR ≠ QR_DECODE_ERROR ∧
    INVALID_UTF16_STRING ≠ IMAGE_ERROR := by
  have hfile : decode_qr_code_from_file path detect cap mem =
      process_result (.error e) cap mem := by
    simp [decode_qr_code_from_file, hdec, herr]
  rw [hfile]
  refine ⟨process_result_error_fst e cap mem, ?_, by decide, by decide, by decide⟩
  rcases process_result_error_fst e cap mem with h | h <;> rw [h] <;> decide

theorem C4_amended_witness :
    utf16leDecodeBytes (unitsToBytesLE [65]) = some [65] ∧
    (((decode_qr_code_from_file [65]
        (fun _ => .error (.IllegalArgumentException none)) 4 mem0).1 =
        QR_DECODE_NO_QR_CODE ∨
      (decode_qr_code_from_file [65]
        (fun _ => .error (.IllegalArgumentException none)) 4 mem0).1 =
        QR_DECODE_ERROR) ∧
     (decode_qr_code_from_file [65]
       (fun _ => .error (.IllegalArgumentException none)) 4 mem0).1 ≠
       IMAGE_ERROR ∧
     QR_DECODE_NO_QR_CODE ≠ QR_DECODE_ERROR ∧
     IMAGE_ERROR ≠ QR_DECODE_ERROR ∧
     INVALID_UTF16_STRING ≠ IMAGE_ERROR) :=
  ⟨by decide,
   C4_amended_file_statuses [65] _ 4 mem0 (.IllegalArgumentException none) [65]
     (by decide) rfl⟩

/-- C5: For every call to `decode_qr_code_from_file` whose input code units
are not valid UTF-16 under strict decoding, the call returns
`INVALID_UTF16_STRING`, leaves the caller's memory entirely unchanged, and
invokes no external library: the result is the same for every detection
oracle, which is therefore never consulted. -/
theorem C5_invalid_utf16_path (units : List Nat)
    (detect : List Nat → Except Exceptions RXingResult)
    (cap : Nat) (mem : Nat → Nat)
    (hu : ∀ u ∈ units, u < 65536) (hbad : decodeUtf16 units = none) :
    decode_qr_code_from_file units detect cap mem = (INVALID_UTF16_STRING, mem) := by
  have hdec : utf16leDecodeBytes (unitsToBytesLE units) = none := by
    simp [utf16leDecodeBytes, bytesToUnits_unitsToBytesLE units hu, hbad]
  simp [decode_qr_code_from_file, hdec]

theorem C5_witness :
    (∀ u ∈ [0xD800], u < 65536) ∧
    decodeUtf16 [0xD800] = none ∧
    decode_qr_code_from_file [0xD800] (fun _ => .ok sampleResult) 4 mem0 =
      (INVALID_UTF16_STRING, mem0) :=
  ⟨by decide, by decide,
   C5_invalid_utf16_path [0xD800] (fun _ => .ok sampleResult) 4 mem0
     (by decide) (by decide)⟩

/-- C6: For every successful decode whose text needs `n` UTF-16 code units
with `n ≤ cap`, the return value is exactly `n`, the first `n` cells of the
output buffer hold the re-encoded text, and every cell at index ≥ `n` is
left unmodified. -/
theorem C6_exact_fit (r : RXingResult) (cap : Nat) (mem : Nat → Nat)
    (hfit : (encodeUtf16 r.text).length ≤ cap) :
    (process_result (.ok r) cap mem).1 = Int.ofNat (encodeUtf16 r.text).length ∧
    (∀ j, j < (encodeUtf16 r.text).length →
      (process_result (.ok r) cap mem).2 j = (encodeUtf16 r.text).getD j 0) ∧
    (∀ j, (encodeUtf16 r.text).length ≤ j →
      (process_result (.ok r) cap mem).2 j = mem j) := by
  refine ⟨process_result_ok_fst r cap mem, ?_, ?_⟩
  · intro j hj
    rw [process_result_ok_snd]
    have hcond : j < (encodeUtf16 r.text).length ∧ j < cap := ⟨hj, by omega⟩
    simp [hcond]
  · intro j hj
    rw [process_result_ok_snd]
    have hcond : ¬(j < (encodeUtf16 r.text).length ∧ j < cap) := by omega
    simp [hcond]

theorem C6_witness :
    (encodeUtf16 sampleResult.text).length ≤ 32 ∧
    (process_result (.ok sampleResult) 32 mem0).1 =
      Int.ofNat (encodeUtf16 sampleResult.text).length ∧
    (process_result (.ok sampleResult) 32 mem0).2 0 =
      (encodeUtf16 sampleResult.text).getD 0 0 ∧
    (process_result (.ok sampleResult) 32 mem0).2 1 =
      (encodeUtf16 sampleResult.text).getD 1 0 ∧
    (process_result (.ok sampleResult) 32 mem0).2 2 = mem0 2 :=
  ⟨by decide,
   (C6_exact_fit sampleResult 32 mem0 (by decide)).1,
   (C6_exact_fit sampleResult 32 mem0 (by decide)).2.1 0 (by decide),
   (C6_exact_fit sampleResult 32 mem0 (by decide)).2.1 1 (by decide),
   (C6_exact_fit sampleResult 32 mem0 (by decide)).2.2 2 (by decide)⟩

/-- A sample decode result whose text contains a supplementary-plane
character (encoded as a surrogate pair) followed by a BMP character. -/
def astralResult : RXingResult := ⟨[0x1F600, 65], by decide⟩

/-- C7: the adapter's re-encoding of the decoded text T into UTF-16 is
faithful: on the success path (buffer large enough), decoding the written
code-unit sequence back from the boundary encoding recovers T exactly. -/
theorem C7_roundtrip_success_path (r : RXingResult) (cap : Nat)
    (mem : Nat → Nat) (hfit : (encodeUtf16 r.text).length ≤ cap) :
    decodeUtf16 (readBuf (process_result (.ok r) cap mem).2
      (encodeUtf16 r.text).length) = some r.text := by
  have hread : readBuf (process_result (.ok r) cap mem).2
      (encodeUtf16 r.text).length = encodeUtf16 r.text := by
    apply readBuf_eq
    intro j hj
    rw [process_result_ok_snd]
    have hcond : j < (encodeUtf16 r.text).length ∧ j < cap := ⟨hj, by omega⟩
    simp [hcond]
  rw [hread]
  exact decodeUtf16_encodeUtf16 r.text r.text_scalar

theorem C7_witness :
    (encodeUtf16 astralResult.text).length ≤ 8 ∧
    decodeUtf16 (readBuf (process_result (.ok astralResult) 8 mem0).2
      (encodeUtf16 astralResult.text).length) = some astralResult.text :=
  ⟨by decide, C7_roundtrip_success_path astralResult 8 mem0 (by decide)⟩

/-- C8: For every call to `decode_qr_code_from_image` whose byte buffer
cannot be loaded as an image, the call returns `IMAGE_ERROR` with the
caller's memory unchanged, and no barcode-decoding step is attempted: the
result is the same for every detection oracle. -/
theorem C8_image_load_failure (buf : List Nat)
    (loadImage : List Nat → Option DynamicImage)
    (detect : DynamicImage → Except Exceptions RXingResult)
    (cap : Nat) (mem : Nat → Nat) (hload : loadImage buf = none) :
    decode_qr_code_from_image buf loadImage detect cap mem = (IMAGE_ERROR, mem) := by
  simp [decode_qr_code_from_image, hload]

theorem C8_witness :
    ((fun _ : List Nat => (none : Option DynamicImage)) [1, 2, 3] = none) ∧
    decode_qr_code_from_image [1, 2, 3] (fun _ => none)
      (fun _ => .ok sampleResult) 4 mem0 = (IMAGE_ERROR, mem0) :=
  ⟨rfl, C8_image_load_failure [1, 2, 3] (fun _ => none)
    (fun _ => .ok sampleResult) 4 mem0 rfl⟩

/-- C9: For every call to either entry point that returns a non-success
outcome — invalid encoding, image-load error, not-found, or generic decode
failure — the output buffer is left entirely unmodified. -/
theorem C9_non_success_leaves_buffer (units buf : List Nat)
    (detectF : List Nat → Except Exceptions RXingResult)
    (loadImage : List Nat → Option DynamicImage)
    (detectI : DynamicImage → Except Exceptions RXingResult)
    (cap : Nat) (mem : Nat → Nat) :
    (∀ e : Exceptions, (process_result (.error e) cap mem).2 = mem) ∧
    (utf16leDecodeBytes (unitsToBytesLE units) = none →
      (decode_qr_code_from_file units detectF cap mem).2 = mem) ∧
    (∀ p, utf16leDecodeBytes (unitsToBytesLE units) = some p →
      ∀ e, detectF p = .error e →
        (decode_qr_code_from_file units detectF cap mem).2 = mem) ∧
    (loadImage buf = none →
      (decode_qr_code_from_image buf loadImage detectI cap mem).2 = mem) ∧
    (∀ img, loadImage buf = some img → ∀ e, detectI img = .error e →
      (decode_qr_code_from_image buf loadImage detectI cap mem).2 = mem) := by
  refine ⟨fun e => process_result_error_snd e cap mem, ?_, ?_, ?_, ?_⟩
  · intro hdec
    simp [decode_qr_code_from_file, hdec]
  · intro p hdec e herr
    simp [decode_qr_code_from_file, hdec, herr, process_result_error_snd]
  · intro hload
    simp [decode_qr_code_from_image, hload]
  · intro img hload e herr
    simp [decode_qr_code_from_image, hload, herr, process_result_error_snd]

theorem C9_witness :
    (process_result (.error (.FormatException none)) 4 mem0).2 = mem0 ∧
    (decode_qr_code_from_file [0xD800] (fun _ => .ok sampleResult) 4 mem0).2 =
      mem0 ∧
    (decode_qr_code_from_file [65]
      (fun _ => .error (.ChecksumException none)) 4 mem0).2 = mem0 ∧
    (decode_qr_code_from_image [9] (fun _ => none)
      (fun _ => .ok sampleResult) 4 mem0).2 = mem0 ∧
    (decode_qr_code_from_image [9] (fun _ => some sampleImage)
      (fun _ => .error (.NotFoundException none)) 4 mem0).2 = mem0 :=
  ⟨(C9_non_success_leaves_buffer [0xD800] [9] (fun _ => .ok sampleResult)
      (fun _ => none) (fun _ => .ok sampleResult) 4 mem0).1
      (.FormatException none),
   (C9_non_success_leaves_buffer [0xD800] [9] (fun _ => .ok sampleResult)
      (fun _ => none) (fun _ => .ok sampleResult) 4 mem0).2.1 (by decide),
   (C9_non_success_leaves_buffer [65] [9]
      (fun _ => .error (.ChecksumException none)) (fun _ => none)
      (fun _ => .ok sampleResult) 4 mem0).2.2.1 [65] (by decide)
      (.ChecksumException none) rfl,
   (C9_non_success_leaves_buffer [0xD800] [9] (fun _ => .ok sampleResult)
      (fun _ => none) (fun _ => .ok sampleResult) 4 mem0).2.2.2.1 rfl,
   (C9_non_success_leaves_buffer [0xD800] [9] (fun _ => .ok sampleResult)
      (fun _ => some sampleImage)
      (fun _ => .error (.NotFoundException none)) 4 mem0).2.2.2.2
      sampleImage rfl (.NotFoundException none) rfl⟩

/-- C10: the not-found outcome returns the sentinel 0, identical to the
success return value for a barcode whose decoded text is empty, so a caller
cannot distinguish the two by the return value alone. -/
theorem C10_not_found_vs_empty_text (cap : Nat) (mem : Nat → Nat)
    (msg : Option String) (r : RXingResult) (hempty : r.text = []) :
    (process_result (.error (.NotFoundException msg)) cap mem).1 =
      QR_DECODE_NO_QR_CODE ∧
    (process_result (.ok r) cap mem).1 = QR_DECODE_NO_QR_CODE ∧
    QR_DECODE_NO_QR_CODE = 0 := by
  refine ⟨rfl, ?_, rfl⟩
  rw [process_result_ok_fst, hempty]
  rfl

theorem C10_witness :
    emptyResult.text = [] ∧
    ((process_result (.error (.NotFoundException none)) 4 mem0).1 =
       QR_DECODE_NO_QR_CODE ∧
     (process_result (.ok emptyResult) 4 mem0).1 = QR_DECODE_NO_QR_CODE ∧
     QR_DECODE_NO_QR_CODE = 0) :=
  ⟨rfl, C10_not_found_vs_empty_text 4 mem0 none emptyResult rfl⟩
